import Mathlib

/-!
Shallow embedding of the `tabanywhere` autocompleter core
(`src/autocompleter/core/core.py`, `src/autocompleter/core/llm_client.py`,
`src/autocompleter/core/overlay.py`).

The single-threaded event-handling path of `AutocompleteCore` is modelled as a
state machine over `CoreState`.  Platform inputs (AT-SPI events, the values
returned by the accessibility interfaces, HTTP outcomes of the backend call,
success of the direct write) are carried by the event structures, so every
handler is a total Lean function from the source code's branches.

Time is modelled by `Nat` timestamps (think milliseconds); the configured
debounce delay `update_delay` is an explicit `delay` parameter of the timed
handlers.  The `threading.Timer` slot `self._idle_timer` is modelled by
`idle_timer : Option Nat`, the deadline of the armed timer; cancelling is
overwriting or clearing the slot.  A fire of the timer is executed by
`fireDue`, which runs the source's `_check_and_query_llm` guard at the
deadline.  The background LLM thread of `query_llm_async` is split into its
two atomic halves: issuing the request (reading `current_text_cache` and
calling the backend) at spawn time, and the completion continuation
(`runLlmComplete`), which is the code after `get_suggestion` returns and which
nondeterministically arrives later as an explicit `Event.complete`.
-/

namespace Autocompleter

/-- Opaque identity of an AT-SPI `Accessible` object (`event.source`);
comparison with `==` in the source is equality of handles. -/
abbrev FieldId := Nat

/-- Result of `queryComponent().getExtents(0)`: screen bounding box. -/
structure BBox where
  x : Int
  y : Int
  w : Int
  h : Int
deriving DecidableEq

/-- The overlay window as seen from the core: hidden, or showing a suggestion
at the coordinates passed to `Overlay.show_suggestion`. -/
inductive OverlayView
  | hidden
  | shownAt (text : String) (x : Int) (y : Int)
deriving DecidableEq

/-- A focus-changed notification as consumed by `on_focus_event`:
`gained` is `event.detail1 == 1`; `source` is `event.source` (possibly null);
`roleName` is what `event.source.getRoleName()` returns; `readText` is what
`_get_full_text(event.source)` returns (that helper already catches its own
exceptions and yields `""`). -/
structure FocusEv where
  gained : Bool
  source : Option FieldId
  roleName : String
  readText : String
deriving DecidableEq

/-- A text-changed notification as consumed by `on_text_changed_event`. -/
structure TextEv where
  source : Option FieldId
  readText : String
deriving DecidableEq

/-- Completion of one background `run_llm` thread: `reqIndex` says which
in-flight request finishes, `result` is the string `get_suggestion` returned,
and `rawBBox` is the outcome of `queryComponent().getExtents(0)` at completion
time (`none` models the call raising, e.g. because focus is gone). -/
structure CompleteEv where
  reqIndex : Nat
  result : String
  rawBBox : Option BBox
deriving DecidableEq

/-- A click on the overlay's Accept button: `suggestion` is the label text
passed to the `on_accept` callback, `writeOk` is whether
`queryEditableText().setTextContents(...)` succeeds (the helper
`_set_text_contents` catches every exception and returns `False`). -/
structure AcceptEv where
  suggestion : String
  writeOk : Bool
deriving DecidableEq

/-- The mutable state of `AutocompleteCore`, together with bookkeeping for the
observable effects the claims talk about.

* `current_focus`, `current_text_cache`, `last_text_update_time`,
  `idle_timer` are the instance attributes of `AutocompleteCore`
  (`self._idle_timer` holds the deadline of the armed `threading.Timer`).
* `fieldTexts` is the real content of the platform text fields, updated by a
  successful `setTextContents` direct write.
* `overlay` mirrors the overlay window.
* `pending` are the in-flight backend requests (focus at issue time, text
  passed to `get_suggestion`).
* `requests` logs every text ever sent to the backend, `showCalls` logs every
  `show_suggestion` call, `fallbackCalls` logs every `_clipboard_paste` call. -/
structure CoreState where
  current_focus : Option FieldId
  current_text_cache : String
  last_text_update_time : Nat
  idle_timer : Option Nat
  fieldTexts : List (FieldId × String)
  overlay : OverlayView
  pending : List (Option FieldId × String)
  requests : List String
  showCalls : List (String × Int × Int)
  fallbackCalls : List String
deriving DecidableEq

/-- Initial state, `AutocompleteCore.__init__`: no focus, empty cache, timestamp 0, no timer;
the overlay window starts hidden (`self.window.hide()` in `Overlay.__init__`). -/
def initState : CoreState :=
  { current_focus := none
    current_text_cache := ""
    last_text_update_time := 0
    idle_timer := none
    fieldTexts := []
    overlay := OverlayView.hidden
    pending := []
    requests := []
    showCalls := []
    fallbackCalls := [] }

/-- Python `str.lower`, written over the character list (extensionally
`String.toLower`) so that it evaluates in the kernel. -/
def lowerStr (s : String) : String := String.mk (s.data.map Char.toLower)

/-- Substring test: Python's `needle in hay`. -/
def containsSub (hay needle : String) : Bool :=
  decide (List.IsInfix needle.toList hay.toList)

/-- Python `s.startswith(p)`, written over the character lists. -/
def strStartsWith (s p : String) : Bool :=
  decide (List.IsPrefix p.toList s.toList)

/-- Python `str.strip`: drop leading and trailing whitespace. -/
def strip (s : String) : String :=
  String.mk
    (((s.data.dropWhile Char.isWhitespace).reverse.dropWhile
        Char.isWhitespace).reverse)

/-- The role check of `on_focus_event`:
`role_name = event.source.getRoleName().lower() if event.source else ""` and
then `"edit" in role_name or "text" in role_name`. -/
def textRole (e : FocusEv) : Bool :=
  let roleName := match e.source with
    | some _ => lowerStr e.roleName
    | none => ""
  containsSub roleName "edit" || containsSub roleName "text"

/-- Model of `AutocompleteCore.query_llm_async`: returns immediately when
`self.current_focus` is falsy; otherwise spawns the backend request, whose
first atomic half reads `self.current_text_cache` and hands it to
`llm_client.get_suggestion`. -/
def query_llm_async (s : CoreState) : CoreState :=
  match s.current_focus with
  | none => s
  | some _ =>
      { s with
        pending := s.pending ++ [(s.current_focus, s.current_text_cache)]
        requests := s.requests ++ [s.current_text_cache] }

/-- Model of `AutocompleteCore._check_and_query_llm`, run when the idle timer fires at
time `now`: `elapsed = time.time() - self.last_text_update_time`, and only if
`elapsed >= self.update_delay` does it call `query_llm_async`. -/
def check_and_query_llm (delay now : Nat) (s : CoreState) : CoreState :=
  if delay ≤ now - s.last_text_update_time then query_llm_async s else s

/-- Model of `AutocompleteCore.on_focus_event`.  On gained focus for a field whose role
name contains "edit" or "text": track the field, cache its full text, and
immediately call `query_llm_async`.  On gained focus for any other field:
null the focus and hide the overlay (the cached text is left as is).  On lost
focus: only if `self.current_focus == event.source`, null the focus, clear the
cache and hide the overlay (the idle timer is not touched). -/
def on_focus_event (s : CoreState) (e : FocusEv) : CoreState :=
  if e.gained then
    if textRole e then
      query_llm_async
        { s with current_focus := e.source, current_text_cache := e.readText }
    else
      { s with current_focus := none, overlay := OverlayView.hidden }
  else
    if s.current_focus = e.source then
      { s with
        current_focus := none
        current_text_cache := ""
        overlay := OverlayView.hidden }
    else s

/-- Model of `AutocompleteCore.on_text_changed_event` at time `now`: only when a focus
is tracked and `event.source == self.current_focus`, refresh the cache, set
`last_text_update_time = now`, cancel any previous `threading.Timer` and arm a
new one `update_delay` in the future (the single slot `idle_timer` is simply
overwritten with the new deadline). -/
def on_text_changed_event (delay now : Nat) (s : CoreState) (e : TextEv) :
    CoreState :=
  match s.current_focus with
  | none => s
  | some f =>
      if e.source = some f then
        { s with
          current_text_cache := e.readText
          last_text_update_time := now
          idle_timer := some (now + delay) }
      else s

/-- Model of `AutocompleteCore._compute_new_text`: if the suggestion starts with the
current text, return the suggestion; otherwise also return the suggestion. -/
def compute_new_text (current_text suggestion : String) : String :=
  if strStartsWith suggestion current_text then suggestion
  else suggestion

/-- Overwrite-or-insert into the association list of real field contents;
models a successful `setTextContents` on field `f`. -/
def setField : List (FieldId × String) → FieldId → String → List (FieldId × String)
  | [], f, t => [(f, t)]
  | (g, u) :: rest, f, t =>
      if g = f then (f, t) :: rest else (g, u) :: setField rest f t

/-- Read the real content of field `f` (empty when the field is unknown). -/
def getField (l : List (FieldId × String)) (f : FieldId) : String :=
  match l.find? (fun p => p.1 == f) with
  | some p => p.2
  | none => ""

/-- Model of `AutocompleteCore.accept_suggestion`: no-op without a tracked focus;
otherwise compute the merged text, attempt the direct write, on success update
`current_text_cache` (and the field's real content) and return, on failure or
exception fall through to `_clipboard_paste(suggestion)` — note the source
passes the raw `suggestion` to the fallback, and leaves the cache untouched. -/
def accept_suggestion (s : CoreState) (e : AcceptEv) : CoreState :=
  match s.current_focus with
  | none => s
  | some f =>
      let new_full_text := compute_new_text s.current_text_cache e.suggestion
      if e.writeOk then
        { s with
          current_text_cache := new_full_text
          fieldTexts := setField s.fieldTexts f new_full_text }
      else
        { s with fallbackCalls := s.fallbackCalls ++ [e.suggestion] }

/-- Model of `OverlayWindow._handle_accept_clicked`: invoke the `on_accept` callback
(wired to `accept_suggestion`) with the displayed suggestion, then hide the
overlay window. -/
def handle_accept_clicked (s : CoreState) (e : AcceptEv) : CoreState :=
  { accept_suggestion s e with overlay := OverlayView.hidden }

/-- Model of `AutocompleteCore._get_bounding_box`: the `getExtents` result, or the
fixed fallback `(0, 0, 50, 20)` when the read raised. -/
def get_bounding_box (raw : Option BBox) : BBox :=
  raw.getD { x := 0, y := 0, w := 50, h := 20 }

/-- The tail of `run_llm` in `AutocompleteCore.query_llm_async`, executed when
the backend call of in-flight request `reqIndex` returns `result`:
if the suggestion is non-empty, compute the bounding box (with its exception
fallback) and call `overlay.show_suggestion(suggestion, x, y + h)`; otherwise
call `overlay.hide()`.  No focus or staleness check appears in the source. -/
def runLlmComplete (s : CoreState) (e : CompleteEv) : CoreState :=
  match s.pending.get? e.reqIndex with
  | none => s
  | some _ =>
      if e.result = "" then
        { s with
          pending := s.pending.eraseIdx e.reqIndex
          overlay := OverlayView.hidden }
      else
        { s with
          pending := s.pending.eraseIdx e.reqIndex
          overlay := OverlayView.shownAt e.result (get_bounding_box e.rawBBox).x
            ((get_bounding_box e.rawBBox).y + (get_bounding_box e.rawBBox).h)
          showCalls := s.showCalls ++ [(e.result, (get_bounding_box e.rawBBox).x,
            (get_bounding_box e.rawBBox).y + (get_bounding_box e.rawBBox).h)] }

/-- One externally visible event delivered to the core. -/
inductive Event
  | focus (e : FocusEv)
  | textChanged (e : TextEv)
  | complete (e : CompleteEv)
  | acceptClicked (e : AcceptEv)
deriving DecidableEq

/-- An event stamped with its arrival time. -/
structure TimedEvent where
  time : Nat
  ev : Event
deriving DecidableEq

/-- Dispatch one event to the matching handler of the source. -/
def handleEvent (delay now : Nat) (s : CoreState) : Event → CoreState
  | Event.focus e => on_focus_event s e
  | Event.textChanged e => on_text_changed_event delay now s e
  | Event.complete e => runLlmComplete s e
  | Event.acceptClicked e => handle_accept_clicked s e

/-- Fire the armed `threading.Timer` if its deadline has been reached by time
`now`: the timer slot empties and `_check_and_query_llm` runs at the deadline
(the real timer fires `update_delay` after being started). -/
def fireDue (delay now : Nat) (s : CoreState) : CoreState :=
  match s.idle_timer with
  | some d =>
      if d ≤ now then check_and_query_llm delay d { s with idle_timer := none }
      else s
  | none => s

/-- Deliver one timed event: any timer due strictly before (or at) the event's
arrival fires first, then the event is handled. -/
def deliver (delay : Nat) (s : CoreState) (te : TimedEvent) : CoreState :=
  handleEvent delay te.time (fireDue delay te.time s) te.ev

/-- Run the core over a time-ordered list of events. -/
def run (delay : Nat) (s : CoreState) : List TimedEvent → CoreState
  | [] => s
  | te :: tes => run delay (deliver delay s te) tes

/-- Run the events, then let time advance to `endTime`, firing a still-armed
timer whose deadline falls in the quiet period. -/
def runTo (delay : Nat) (s : CoreState) (tes : List TimedEvent) (endTime : Nat) :
    CoreState :=
  fireDue delay endTime (run delay s tes)

/-! ### LLM client (`src/autocompleter/core/llm_client.py`) -/

/-- Outcome of the HTTP exchange `requests.post` + `raise_for_status` +
`.json()`: a 2xx response whose JSON may or may not carry a `completion`
field, a `requests.RequestException` from the transport, a non-2xx status
(raised by `raise_for_status`), or a body that is not JSON (`.json()` raises a
`ValueError`). -/
inductive HttpOutcome
  | ok (completion : Option String)
  | netError
  | non2xx
  | malformed
deriving DecidableEq

/-- Python truthiness of `self.endpoint`: `None` and `""` are falsy. -/
def endpointConfigured : Option String → Bool
  | none => false
  | some s => !(s == "")

/-- Whether `get_suggestion` reaches `requests.post`: exactly when
`self.endpoint` is truthy. -/
def performsNetworkCall (endpoint : Option String) : Bool :=
  endpointConfigured endpoint

/-- Model of `LLMClient._fallback_suggestion`: `"Start typing..."` for falsy (empty)
text, else the text with `"..."` appended. -/
def fallback_suggestion (partialText : String) : String :=
  if partialText = "" then "Start typing..." else partialText ++ "..."

/-- Model of `LLMClient.get_suggestion`: with no configured endpoint, return the local
stub without any network activity; otherwise the result of the HTTP exchange:
`data.get("completion", "").strip()` on a good response, and `""` when
`requests.RequestException` or `ValueError` is caught. -/
def get_suggestion (endpoint : Option String) (partialText : String)
    (o : HttpOutcome) : String :=
  if endpointConfigured endpoint then
    match o with
    | HttpOutcome.ok completion => strip (completion.getD "")
    | HttpOutcome.netError => ""
    | HttpOutcome.non2xx => ""
    | HttpOutcome.malformed => ""
  else
    fallback_suggestion partialText

/-- The coordinator-state invariant claimed by the spec's data model, in the
only form expressible in the source (there is no `None` cache value; `""` is
the cleared state): a non-empty cached text implies a tracked field. -/
def CacheFocusInv (s : CoreState) : Prop :=
  s.current_text_cache ≠ "" → s.current_focus ≠ none

/-- Event filter for the amended C3 invariant: every focus-gained event in the
trace targets a field whose role name passes the "edit"/"text" check. -/
def focusGainTextRole (te : TimedEvent) : Bool :=
  match te.ev with
  | Event.focus e => !e.gained || textRole e
  | _ => true

/-- Times of a burst of text events: strictly increasing, and each successive
event arrives sooner than `delay` after the previous one. -/
def burstTimesOk (delay : Nat) : List (Nat × String) → Bool
  | [] => true
  | [_] => true
  | p :: q :: rest =>
      (decide (p.1 < q.1) && decide (q.1 < p.1 + delay)) &&
        burstTimesOk delay (q :: rest)

/-- The burst as timed text-changed events from field `f`. -/
def burstEvents (f : FieldId) : List (Nat × String) → List TimedEvent
  | [] => []
  | (t, x) :: rest =>
      { time := t, ev := Event.textChanged { source := some f, readText := x } } ::
        burstEvents f rest

/-- Last element of a nonempty list given as head and tail. -/
def lastPair (p : Nat × String) : List (Nat × String) → Nat × String
  | [] => p
  | q :: rest => lastPair q rest

/-! ### Helper lemmas -/

/-- Both branches of `_compute_new_text` return the suggestion. -/
theorem compute_new_text_id (current_text suggestion : String) :
    compute_new_text current_text suggestion = suggestion := by
  unfold compute_new_text
  split <;> rfl

/-- Reading back a field just written by `setField`. -/
theorem getField_setField (l : List (FieldId × String)) (f : FieldId)
    (t : String) : getField (setField l f t) f = t := by
  induction l with
  | nil => simp [setField, getField]
  | cons p rest ih =>
      obtain ⟨g, u⟩ := p
      by_cases hg : g = f
      · simp [setField, hg, getField]
      · simp [setField, hg, getField, hg, ih]
        simpa [getField, Ne.symm hg] using ih

/-- The helper `query_llm_async` is the identity when no focus is tracked. -/
theorem query_llm_async_no_focus (s : CoreState)
    (h : s.current_focus = none) : query_llm_async s = s := by
  unfold query_llm_async
  rw [h]

/-- A guard-check run with no tracked focus issues no request. -/
theorem check_and_query_requests_no_focus (delay now : Nat) (s : CoreState)
    (h : s.current_focus = none) :
    (check_and_query_llm delay now s).requests = s.requests := by
  unfold check_and_query_llm
  split
  · rw [query_llm_async_no_focus s h]
  · rfl

/-- A timer fire with no tracked focus issues no request. -/
theorem fireDue_requests_no_focus (delay now : Nat) (s : CoreState)
    (h : s.current_focus = none) :
    (fireDue delay now s).requests = s.requests := by
  unfold fireDue
  split
  next d _ =>
    split
    · rw [check_and_query_requests_no_focus delay d
        { s with idle_timer := none } h]
    · rfl
  next => rfl

/-- Appending `"..."` never yields the empty string. -/
theorem append_dots_ne_empty (s : String) : s ++ "..." ≠ "" := by
  intro h
  have hlen := congrArg String.length h
  rw [String.length_append] at hlen
  have h3 : ("...").length = 3 := rfl
  have h0 : ("" : String).length = 0 := rfl
  rw [h3, h0] at hlen
  omega

/-! ### Claims -/

/-- Claim C6: for every pair `(cachedText, suggestionText)`, the merge
function `_compute_new_text` used by `accept_suggestion` returns
`suggestionText`: both the branch where the suggestion begins with the cached
text and the branch where it does not produce the suggestion as the new full
text. -/
theorem c6_merge_returns_suggestion (cachedText suggestionText : String) :
    compute_new_text cachedText suggestionText = suggestionText :=
  compute_new_text_id cachedText suggestionText

/-- Claim C9: with no configured backend endpoint, `get_suggestion` performs
no network call, its result does not depend on any HTTP outcome, and it is the
non-empty local stub: `"Start typing..."` on empty input, the input followed
by `"..."` otherwise. -/
theorem c9_unconfigured_local_stub (endpoint : Option String) (text : String)
    (o o' : HttpOutcome) (h : endpointConfigured endpoint = false) :
    performsNetworkCall endpoint = false ∧
    get_suggestion endpoint text o = get_suggestion endpoint text o' ∧
    get_suggestion endpoint text o ≠ "" ∧
    (text = "" → get_suggestion endpoint text o = "Start typing...") ∧
    (text ≠ "" → get_suggestion endpoint text o = text ++ "...") := by
  have hval : ∀ oo : HttpOutcome,
      get_suggestion endpoint text oo = fallback_suggestion text := by
    intro oo
    simp [get_suggestion, h]
  refine ⟨h, by rw [hval, hval], ?_, ?_, ?_⟩
  · rw [hval]
    unfold fallback_suggestion
    split
    · decide
    · exact append_dots_ne_empty text
  · intro ht
    rw [hval]
    simp [fallback_suggestion, ht]
  · intro ht
    rw [hval]
    simp [fallback_suggestion, ht]

/-- Witness for C9 at a concrete unconfigured client. -/
theorem c9_unconfigured_local_stub_witness :
    performsNetworkCall none = false ∧
    get_suggestion none "ab" HttpOutcome.netError
      = get_suggestion none "ab" (HttpOutcome.ok none) ∧
    get_suggestion none "ab" HttpOutcome.netError ≠ "" ∧
    ("ab" = "" → get_suggestion none "ab" HttpOutcome.netError = "Start typing...") ∧
    ("ab" ≠ "" → get_suggestion none "ab" HttpOutcome.netError = "ab" ++ "...") :=
  c9_unconfigured_local_stub none "ab" HttpOutcome.netError (HttpOutcome.ok none) rfl

/-- Claim C7: when the backend exchange fails (network error, non-2xx,
malformed body) or produces an empty suggestion, `get_suggestion` returns
`""` (the exception is caught inside the client, and `run_llm` is itself
wrapped in a catch-all, so nothing propagates to the event-handling path:
every handler here is a total function), and the completion continuation
hides the overlay. -/
theorem c7_failure_or_empty_hides (endpoint : Option String) (txt : String)
    (o : HttpOutcome) (s : CoreState) (i : Nat) (raw : Option BBox)
    (hconf : endpointConfigured endpoint = true)
    (hfail : o = HttpOutcome.netError ∨ o = HttpOutcome.non2xx ∨
      o = HttpOutcome.malformed ∨ get_suggestion endpoint txt o = "")
    (hi : i < s.pending.length) :
    get_suggestion endpoint txt o = "" ∧
    (runLlmComplete s
        { reqIndex := i, result := get_suggestion endpoint txt o, rawBBox := raw }).overlay
      = OverlayView.hidden := by
  have hres : get_suggestion endpoint txt o = "" := by
    rcases hfail with h1 | h1 | h1 | h1
    · simp [get_suggestion, hconf, h1]
    · simp [get_suggestion, hconf, h1]
    · simp [get_suggestion, hconf, h1]
    · exact h1
  refine ⟨hres, ?_⟩
  simp [runLlmComplete, List.getElem?_eq_getElem hi, hres]

/-- Witness for C7: a network error on a configured endpoint, with one
in-flight request. -/
theorem c7_failure_or_empty_hides_witness :
    get_suggestion (some "http://localhost:8000/v1/completions") "hi"
      HttpOutcome.netError = "" ∧
    (runLlmComplete { initState with pending := [(some 0, "hi")] }
        { reqIndex := 0,
          result := get_suggestion (some "http://localhost:8000/v1/completions")
            "hi" HttpOutcome.netError,
          rawBBox := none }).overlay = OverlayView.hidden :=
  c7_failure_or_empty_hides (some "http://localhost:8000/v1/completions") "hi"
    HttpOutcome.netError { initState with pending := [(some 0, "hi")] } 0 none
    rfl (Or.inl rfl) (by decide)

/-- Claim C10: when reading the bounding box raises, `_get_bounding_box`
substitutes the fixed default `(0, 0, 50, 20)`; a completion with a non-empty
suggestion therefore still calls `show_suggestion`, anchored at
`(x, y + h) = (0, 20)` — the failure neither suppresses the show call nor
propagates. -/
theorem c10_bbox_fallback (s : CoreState) (i : Nat) (res : String)
    (hres : res ≠ "") (hi : i < s.pending.length) :
    get_bounding_box none = { x := 0, y := 0, w := 50, h := 20 } ∧
    (runLlmComplete s { reqIndex := i, result := res, rawBBox := none }).overlay
      = OverlayView.shownAt res 0 20 ∧
    (runLlmComplete s { reqIndex := i, result := res, rawBBox := none }).showCalls
      = s.showCalls ++ [(res, 0, 20)] := by
  refine ⟨rfl, ?_, ?_⟩ <;>
    simp [runLlmComplete, List.getElem?_eq_getElem hi, hres, get_bounding_box]

/-- Witness for C10 with a concrete non-empty suggestion. -/
theorem c10_bbox_fallback_witness :
    get_bounding_box none = { x := 0, y := 0, w := 50, h := 20 } ∧
    (runLlmComplete { initState with pending := [(some 0, "hi")] }
        { reqIndex := 0, result := "hi there", rawBBox := none }).overlay
      = OverlayView.shownAt "hi there" 0 20 ∧
    (runLlmComplete { initState with pending := [(some 0, "hi")] }
        { reqIndex := 0, result := "hi there", rawBBox := none }).showCalls
      = ({ initState with pending := [(some 0, "hi")] } : CoreState).showCalls
          ++ [("hi there", 0, 20)] :=
  c10_bbox_fallback { initState with pending := [(some 0, "hi")] } 0 "hi there"
    (by decide) (by decide)

/-- Claim C8: a text-change event with no live session, or whose source is not
the tracked field handle, leaves the entire coordinator state unchanged — in
particular the cached text, the armed timer slot, the last-update timestamp
and the request log keep their prior values, so no suggestion request is
issued. -/
theorem c8_mismatched_text_event_no_op (delay now : Nat) (s : CoreState)
    (e : TextEv) (h : s.current_focus = none ∨ e.source ≠ s.current_focus) :
    on_text_changed_event delay now s e = s := by
  unfold on_text_changed_event
  cases hc : s.current_focus with
  | none => rfl
  | some f =>
      rcases h with h | h
      · exact absurd hc (by simp [h])
      · rw [hc] at h
        simp [h]

/-- Witness for C8: a stale text event while nothing is focused. -/
theorem c8_mismatched_text_event_no_op_witness :
    on_text_changed_event 500 100 initState
      { source := some 3, readText := "x" } = initState :=
  c8_mismatched_text_event_no_op 500 100 initState
    { source := some 3, readText := "x" } (Or.inl rfl)

/-- Claim C5: an accept click with a live session has exactly one of two
outcomes, decided by the success of the direct write: on success the cache and
the field's real content both equal the merged text and no fallback call is
made; on failure (or a raise, which `_set_text_contents` converts into
`False`) the clipboard-paste fallback is invoked with the merged text (the
source passes `suggestion`, which equals the merged text since
`_compute_new_text` returns the suggestion in both branches) and the cache is
left unchanged.  In both cases the overlay is hidden afterwards by the
overlay's own accept flow (`_handle_accept_clicked`). -/
theorem c5_accept_outcomes (s : CoreState) (e : AcceptEv) (f : FieldId)
    (hf : s.current_focus = some f) :
    (handle_accept_clicked s e).overlay = OverlayView.hidden ∧
    (e.writeOk = true →
      (handle_accept_clicked s e).current_text_cache
        = compute_new_text s.current_text_cache e.suggestion ∧
      getField (handle_accept_clicked s e).fieldTexts f
        = compute_new_text s.current_text_cache e.suggestion ∧
      (handle_accept_clicked s e).fallbackCalls = s.fallbackCalls) ∧
    (e.writeOk = false →
      (handle_accept_clicked s e).fallbackCalls
        = s.fallbackCalls ++ [compute_new_text s.current_text_cache e.suggestion] ∧
      (handle_accept_clicked s e).current_text_cache = s.current_text_cache) := by
  unfold handle_accept_clicked accept_suggestion
  rw [hf]
  cases hw : e.writeOk
  · simp [hw, compute_new_text_id]
  · simp [hw, getField_setField]

/-- Witness for C5: accepting `"Hello world"` over cached `"Hello wor"` with a
successful direct write. -/
theorem c5_accept_outcomes_witness :
    (handle_accept_clicked
        { initState with current_focus := some 0, current_text_cache := "Hello wor" }
        { suggestion := "Hello world", writeOk := true }).overlay
      = OverlayView.hidden ∧
    (({ suggestion := "Hello world", writeOk := true } : AcceptEv).writeOk = true →
      (handle_accept_clicked
          { initState with current_focus := some 0, current_text_cache := "Hello wor" }
          { suggestion := "Hello world", writeOk := true }).current_text_cache
        = compute_new_text "Hello wor" "Hello world" ∧
      getField (handle_accept_clicked
          { initState with current_focus := some 0, current_text_cache := "Hello wor" }
          { suggestion := "Hello world", writeOk := true }).fieldTexts 0
        = compute_new_text "Hello wor" "Hello world" ∧
      (handle_accept_clicked
          { initState with current_focus := some 0, current_text_cache := "Hello wor" }
          { suggestion := "Hello world", writeOk := true }).fallbackCalls = []) ∧
    (({ suggestion := "Hello world", writeOk := true } : AcceptEv).writeOk = false →
      (handle_accept_clicked
          { initState with current_focus := some 0, current_text_cache := "Hello wor" }
          { suggestion := "Hello world", writeOk := true }).fallbackCalls
        = [] ++ [compute_new_text "Hello wor" "Hello world"] ∧
      (handle_accept_clicked
          { initState with current_focus := some 0, current_text_cache := "Hello wor" }
          { suggestion := "Hello world", writeOk := true }).current_text_cache
        = "Hello wor") :=
  c5_accept_outcomes
    { initState with current_focus := some 0, current_text_cache := "Hello wor" }
    { suggestion := "Hello world", writeOk := true } 0 rfl

/-! ### C1: staleness of late backend results -/

/-- C1 scenario, step 1: field 0 ("A"), of text role and containing
`"hello"`, gains focus; `on_focus_event` immediately issues a backend request
carrying A's text. -/
def c1FocusA : TimedEvent :=
  { time := 0,
    ev := Event.focus
      { gained := true, source := some 0, roleName := "text", readText := "hello" } }

/-- C1 scenario, step 2: before the request completes, field 1 ("B") gains
focus. -/
def c1FocusB : TimedEvent :=
  { time := 1,
    ev := Event.focus
      { gained := true, source := some 1, roleName := "text", readText := "wor" } }

/-- C1 scenario, step 3: the late request issued for A (in-flight index 0)
completes with a non-empty suggestion; the bounding box of the now-focused
field reads `(5, 7, 100, 20)`. -/
def c1CompleteA : TimedEvent :=
  { time := 2,
    ev := Event.complete
      { reqIndex := 0, result := "hello there",
        rawBBox := some { x := 5, y := 7, w := 100, h := 20 } } }

/-- Counterexample to claim C1: after focus moves from field A (id 0) to
field B (id 1), the in-flight request at index 0 is still the one issued for
A with A's text, yet its late completion performs a `show_suggestion` call
while B is focused — the source has no generation token and no staleness
check, so the late result is not discarded. -/
theorem c1_late_result_shown_counterexample :
    (run 500 initState [c1FocusA, c1FocusB]).pending.get? 0
      = some (some 0, "hello") ∧
    (run 500 initState [c1FocusA, c1FocusB, c1CompleteA]).current_focus = some 1 ∧
    (run 500 initState [c1FocusA, c1FocusB, c1CompleteA]).showCalls
      = [("hello there", 5, 27)] := by decide

/-- Claim C1 (amended): the completion of a backend request performs no
generation or staleness check — whenever the returned suggestion is
non-empty, `show_suggestion` is called, whatever the current focus is and
however it changed since the request was issued; in particular a late result
for field A is shown while field B is focused. -/
theorem c1_no_staleness_check (s : CoreState) (e : CompleteEv)
    (hres : e.result ≠ "") (hi : e.reqIndex < s.pending.length) :
    (runLlmComplete s e).showCalls
      = s.showCalls ++ [(e.result, (get_bounding_box e.rawBBox).x,
          (get_bounding_box e.rawBBox).y + (get_bounding_box e.rawBBox).h)] ∧
    (runLlmComplete s e).current_focus = s.current_focus := by
  constructor <;> simp [runLlmComplete, List.getElem?_eq_getElem hi, hres]

/-- Concrete state for the C1 witness: field B focused, the request issued
for field A still in flight. -/
def c1PendState : CoreState :=
  { initState with current_focus := some 1, pending := [(some 0, "hello")] }

/-- Completion event for the C1 witness. -/
def c1CompleteEv : CompleteEv :=
  { reqIndex := 0, result := "hello there",
    rawBBox := some { x := 5, y := 7, w := 100, h := 20 } }

/-- Witness for the amended C1 at a concrete stale completion. -/
theorem c1_no_staleness_check_witness :
    (runLlmComplete c1PendState c1CompleteEv).showCalls
      = c1PendState.showCalls ++ [(c1CompleteEv.result,
          (get_bounding_box c1CompleteEv.rawBBox).x,
          (get_bounding_box c1CompleteEv.rawBBox).y
            + (get_bounding_box c1CompleteEv.rawBBox).h)] ∧
    (runLlmComplete c1PendState c1CompleteEv).current_focus
      = c1PendState.current_focus :=
  c1_no_staleness_check c1PendState c1CompleteEv (by decide) (by decide)

/-! ### C3: the cache/focus invariant -/

/-- C3 scenario, step 1: a text field (id 0) containing `"hello"` gains
focus. -/
def c3FocusText : TimedEvent :=
  { time := 0,
    ev := Event.focus
      { gained := true, source := some 0, roleName := "text", readText := "hello" } }

/-- C3 scenario, step 2: a non-text field (a push button, id 1) gains focus;
the handler nulls `current_focus` and hides the overlay but leaves
`current_text_cache` untouched. -/
def c3FocusButton : TimedEvent :=
  { time := 1,
    ev := Event.focus
      { gained := true, source := some 1, roleName := "push button", readText := "" } }

/-- Counterexample to claim C3: the state reached by the two focus events has
a null field reference together with the retained non-empty cached text
`"hello"`, so the claimed invariant fails. -/
theorem c3_invariant_violated_counterexample :
    (run 500 initState [c3FocusText, c3FocusButton]).current_focus = none ∧
    (run 500 initState [c3FocusText, c3FocusButton]).current_text_cache
      = "hello" := by decide

/-- A role check that passes forces a non-null event source (a null source
yields the empty role name, which contains neither "edit" nor "text"). -/
theorem textRole_source_ne_none (e : FocusEv) (h : textRole e = true) :
    e.source ≠ none := by
  intro hs
  unfold textRole at h
  rw [hs] at h
  have h' : (containsSub "" "edit" || containsSub "" "text") = true := h
  exact absurd h' (by decide)

/-- The request issuer `query_llm_async` preserves the cache/focus invariant (it never touches
the cache or the focus). -/
theorem inv_query_llm_async (s : CoreState) (h : CacheFocusInv s) :
    CacheFocusInv (query_llm_async s) := by
  unfold CacheFocusInv at *
  unfold query_llm_async
  split
  · exact h
  next f heq =>
      intro _
      simp [heq]

/-- The guard `_check_and_query_llm` preserves the cache/focus invariant. -/
theorem inv_check_and_query_llm (delay now : Nat) (s : CoreState)
    (h : CacheFocusInv s) : CacheFocusInv (check_and_query_llm delay now s) := by
  unfold check_and_query_llm
  split
  · exact inv_query_llm_async s h
  · exact h

/-- A timer fire preserves the cache/focus invariant. -/
theorem inv_fireDue (delay now : Nat) (s : CoreState) (h : CacheFocusInv s) :
    CacheFocusInv (fireDue delay now s) := by
  unfold fireDue
  split
  · split
    · apply inv_check_and_query_llm
      exact fun hx => h hx
    · exact h
  · exact h

/-- The handler `on_focus_event` preserves the cache/focus invariant provided a gained
focus passes the text-role check (the non-text branch is exactly the one that
breaks it). -/
theorem inv_on_focus_event (s : CoreState) (e : FocusEv) (h : CacheFocusInv s)
    (hrole : e.gained = true → textRole e = true) :
    CacheFocusInv (on_focus_event s e) := by
  unfold on_focus_event
  cases hg : e.gained with
  | true =>
      have hr := hrole hg
      have hsrc := textRole_source_ne_none e hr
      simp only [hg, hr, if_true]
      apply inv_query_llm_async
      intro _
      simpa using hsrc
  | false =>
      simp only [hg, Bool.false_eq_true, if_false]
      split
      · intro hx
        exact absurd rfl hx
      · exact h

/-- The handler `on_text_changed_event` preserves the cache/focus invariant. -/
theorem inv_on_text_changed_event (delay now : Nat) (s : CoreState) (e : TextEv)
    (h : CacheFocusInv s) :
    CacheFocusInv (on_text_changed_event delay now s e) := by
  unfold CacheFocusInv at *
  unfold on_text_changed_event
  split
  · exact h
  next f heq =>
      split
      · intro _
        simp [heq]
      · exact h

/-- The completion continuation preserves the cache/focus invariant. -/
theorem inv_runLlmComplete (s : CoreState) (e : CompleteEv)
    (h : CacheFocusInv s) : CacheFocusInv (runLlmComplete s e) := by
  unfold runLlmComplete
  split
  · exact h
  · split
    · exact fun hx => h hx
    · exact fun hx => h hx

/-- The overlay's accept flow preserves the cache/focus invariant. -/
theorem inv_handle_accept_clicked (s : CoreState) (e : AcceptEv)
    (h : CacheFocusInv s) : CacheFocusInv (handle_accept_clicked s e) := by
  unfold CacheFocusInv at *
  unfold handle_accept_clicked accept_suggestion
  split
  · exact fun hx => h hx
  next f heq =>
      split
      · intro _
        simp [heq]
      · exact fun hx => h hx

/-- Delivering one timed event preserves the cache/focus invariant, provided
a gained focus passes the text-role check. -/
theorem inv_deliver (delay : Nat) (s : CoreState) (te : TimedEvent)
    (h : CacheFocusInv s) (hrole : focusGainTextRole te = true) :
    CacheFocusInv (deliver delay s te) := by
  unfold deliver handleEvent
  have hfire := inv_fireDue delay te.time s h
  unfold focusGainTextRole at hrole
  cases hev : te.ev with
  | focus e =>
      apply inv_on_focus_event _ _ hfire
      intro hg
      rw [hev] at hrole
      simpa [hg] using hrole
  | textChanged e => exact inv_on_text_changed_event delay te.time _ e hfire
  | complete e => exact inv_runLlmComplete _ e hfire
  | acceptClicked e => exact inv_handle_accept_clicked _ e hfire

/-- Claim C3 (amended): in every state reachable from a state satisfying the
cache/focus invariant by focus, text-change, accept, backend-completion and
timer-fire events in which every focus-gained event targets a field passing
the text-role check, a non-empty cached text implies a non-null field
reference.  (The unrestricted claim is false: a focus-gained event for a
non-text field nulls `current_focus` but retains `current_text_cache`, see
the counterexample.) -/
theorem c3_cache_focus_invariant (delay : Nat) (tes : List TimedEvent)
    (s : CoreState) (hs : CacheFocusInv s)
    (h : tes.all focusGainTextRole = true) :
    CacheFocusInv (run delay s tes) := by
  induction tes generalizing s with
  | nil => exact hs
  | cons te rest ih =>
      rw [List.all_cons, Bool.and_eq_true] at h
      exact ih _ (inv_deliver delay s te hs h.1) h.2

/-- Witness for the amended C3 on a concrete well-roled trace. -/
theorem c3_cache_focus_invariant_witness :
    CacheFocusInv (run 500 initState [c3FocusText]) :=
  c3_cache_focus_invariant 500 [c3FocusText] initState
    (fun hx => absurd rfl hx) (by decide)

/-! ### C4: focus-lost and the pending timer -/

/-- C4 scenario: field 0 gains focus, a text change at time 100 arms the
debounce timer for deadline 600, focus is lost at 200, and a new text field
(id 2) gains focus at 300 — all before the stale timer's deadline. -/
def c4Trace : List TimedEvent :=
  [{ time := 50,
     ev := Event.focus
       { gained := true, source := some 0, roleName := "text", readText := "hi" } },
   { time := 100, ev := Event.textChanged { source := some 0, readText := "hiX" } },
   { time := 200,
     ev := Event.focus
       { gained := false, source := some 0, roleName := "text", readText := "" } },
   { time := 300,
     ev := Event.focus
       { gained := true, source := some 2, roleName := "text", readText := "cc" } }]

/-- Counterexample to claim C4: after the focus-lost event the debounce timer
is still armed for deadline 600 (`on_focus_event` never touches
`self._idle_timer`), and once a new field gains focus before that deadline
the stale timer's fire issues a third backend request — the claim's "cancels
the pending debounce timer so that no suggestion request fires from it
afterwards" fails on both counts.  (The two expected requests are the
immediate ones from the two focus-gained events; the third, trailing `"cc"`,
comes from the stale timer.) -/
theorem c4_timer_not_cancelled_counterexample :
    (run 500 initState (c4Trace.take 3)).idle_timer = some 600 ∧
    (run 500 initState (c4Trace.take 3)).current_focus = none ∧
    (runTo 500 initState c4Trace 700).requests = ["hi", "cc", "cc"] := by decide

/-- Claim C4 (amended): processing a focus-lost event whose source equals the
tracked field clears the session (`current_focus` becomes null), clears the
cached text and hides the overlay, but does not cancel the pending debounce
timer — the timer slot is left exactly as it was; a fire of that timer while
no session is live issues no suggestion request (`query_llm_async` returns
early), so the request log is unchanged as long as focus has not moved to a
new field first (the counterexample shows the stale timer does issue a
request when a new field gains focus before the deadline). -/
theorem c4_focus_lost_effects (delay : Nat) (s : CoreState) (f : FieldId)
    (e : FocusEv) (u : Nat) (hf : s.current_focus = some f)
    (hg : e.gained = false) (hsrc : e.source = some f) :
    (on_focus_event s e).current_focus = none ∧
    (on_focus_event s e).current_text_cache = "" ∧
    (on_focus_event s e).overlay = OverlayView.hidden ∧
    (on_focus_event s e).idle_timer = s.idle_timer ∧
    (fireDue delay u (on_focus_event s e)).requests = s.requests := by
  obtain ⟨cf, cc, lt, it, ft, ov, pd, rq, sc, fb⟩ := s
  have hcf : cf = some f := hf
  subst hcf
  have hstate : on_focus_event ⟨some f, cc, lt, it, ft, ov, pd, rq, sc, fb⟩ e =
      ⟨none, "", lt, it, ft, OverlayView.hidden, pd, rq, sc, fb⟩ := by
    unfold on_focus_event
    rw [hg]
    rw [if_neg (by simp)]
    rw [if_pos (by rw [hsrc])]
  rw [hstate]
  exact ⟨rfl, rfl, rfl, rfl, fireDue_requests_no_focus delay u _ rfl⟩

/-- Concrete live session with an armed timer for the C4 witness. -/
def c4State : CoreState :=
  { initState with
    current_focus := some 0
    current_text_cache := "hi"
    last_text_update_time := 100
    idle_timer := some 600 }

/-- The focus-lost event of the C4 witness. -/
def c4LostEv : FocusEv :=
  { gained := false, source := some 0, roleName := "text", readText := "" }

/-- Witness for the amended C4 at a concrete armed state. -/
theorem c4_focus_lost_effects_witness :
    (on_focus_event c4State c4LostEv).current_focus = none ∧
    (on_focus_event c4State c4LostEv).current_text_cache = "" ∧
    (on_focus_event c4State c4LostEv).overlay = OverlayView.hidden ∧
    (on_focus_event c4State c4LostEv).idle_timer = c4State.idle_timer ∧
    (fireDue 500 600 (on_focus_event c4State c4LostEv)).requests
      = c4State.requests :=
  c4_focus_lost_effects 500 c4State 0 c4LostEv 600 rfl rfl rfl

/-! ### C2: debounce collapses a burst into a single request -/

/-- A timer whose deadline lies strictly in the future does not fire. -/
theorem fireDue_not_due (delay now : Nat) (s : CoreState)
    (h : ∀ d, s.idle_timer = some d → now < d) :
    fireDue delay now s = s := by
  unfold fireDue
  split
  next d heq => rw [if_neg (by have := h d heq; omega)]
  next => rfl

/-- A timer whose deadline has been reached fires: the slot empties and the
guard check runs at the deadline. -/
theorem fireDue_armed_due (delay now d : Nat) (s : CoreState)
    (hd : s.idle_timer = some d) (hle : d ≤ now) :
    fireDue delay now s
      = check_and_query_llm delay d { s with idle_timer := none } := by
  unfold fireDue
  split
  next d' heq =>
    rw [hd] at heq
    obtain rfl : d' = d := (Option.some.inj heq).symm
    rw [if_pos hle]
  next heq =>
    rw [hd] at heq
    exact Option.noConfusion heq

/-- Firing exactly one delay after the last text update passes the
elapsed-time guard. -/
theorem check_and_query_at_deadline (delay lt : Nat) (s : CoreState)
    (hlast : s.last_text_update_time = lt) :
    check_and_query_llm delay (lt + delay) s = query_llm_async s := by
  unfold check_and_query_llm
  rw [hlast, Nat.add_sub_cancel_left, if_pos (Nat.le_refl delay)]

/-- Issuing via `query_llm_async` with a tracked focus appends exactly one request
carrying the current cache. -/
theorem query_llm_async_focused (s : CoreState) (f : FieldId)
    (hf : s.current_focus = some f) :
    query_llm_async s =
      { s with
        pending := s.pending ++ [(some f, s.current_text_cache)]
        requests := s.requests ++ [s.current_text_cache] } := by
  unfold query_llm_async
  rw [hf]

/-- A matching text-change event refreshes the cache, stamps the time and
re-arms the single timer slot. -/
theorem text_event_matching (delay now : Nat) (s : CoreState) (f : FieldId)
    (x : String) (hf : s.current_focus = some f) :
    on_text_changed_event delay now s { source := some f, readText := x } =
      { s with
        current_text_cache := x
        last_text_update_time := now
        idle_timer := some (now + delay) } := by
  unfold on_text_changed_event
  rw [hf]
  simp

/-- Processing a burst of matching text events whose gaps are all below the
delay performs no timer fire and no request; it leaves the cache and the
timestamp at the last event and the single timer slot armed for the last
event's deadline. -/
theorem run_burst (delay : Nat) (f : FieldId) :
    ∀ (rest : List (Nat × String)) (t : Nat) (x : String) (s : CoreState),
      s.current_focus = some f →
      (∀ d, s.idle_timer = some d → t < d) →
      burstTimesOk delay ((t, x) :: rest) = true →
      run delay s (burstEvents f ((t, x) :: rest)) =
        { s with
          current_text_cache := (lastPair (t, x) rest).2
          last_text_update_time := (lastPair (t, x) rest).1
          idle_timer := some ((lastPair (t, x) rest).1 + delay) } := by
  intro rest
  induction rest with
  | nil =>
      intro t x s hf htimer _
      have hb : burstEvents f [(t, x)] =
          [{ time := t,
             ev := Event.textChanged { source := some f, readText := x } }] := rfl
      rw [hb]
      have hrun : run delay s
          [{ time := t,
             ev := Event.textChanged { source := some f, readText := x } }] =
          deliver delay s
            { time := t,
              ev := Event.textChanged { source := some f, readText := x } } := rfl
      rw [hrun]
      have hd2 : deliver delay s
          { time := t,
            ev := Event.textChanged { source := some f, readText := x } } =
          on_text_changed_event delay t (fireDue delay t s)
            { source := some f, readText := x } := rfl
      rw [hd2, fireDue_not_due delay t s htimer]
      rw [text_event_matching delay t s f x hf]
      rfl
  | cons q rest' ih =>
      intro t x s hf htimer hok
      obtain ⟨t2, x2⟩ := q
      have hok1 : t < t2 ∧ t2 < t + delay := by
        unfold burstTimesOk at hok
        rw [Bool.and_eq_true, Bool.and_eq_true] at hok
        exact ⟨by simpa using hok.1.1, by simpa using hok.1.2⟩
      have hok2 : burstTimesOk delay ((t2, x2) :: rest') = true := by
        unfold burstTimesOk at hok
        rw [Bool.and_eq_true] at hok
        exact hok.2
      have hb : burstEvents f ((t, x) :: (t2, x2) :: rest') =
          { time := t,
            ev := Event.textChanged { source := some f, readText := x } } ::
            burstEvents f ((t2, x2) :: rest') := rfl
      rw [hb]
      have hr : run delay s
          ({ time := t,
             ev := Event.textChanged { source := some f, readText := x } } ::
            burstEvents f ((t2, x2) :: rest')) =
          run delay
            (deliver delay s
              { time := t,
                ev := Event.textChanged { source := some f, readText := x } })
            (burstEvents f ((t2, x2) :: rest')) := rfl
      rw [hr]
      have hdel : deliver delay s
          { time := t,
            ev := Event.textChanged { source := some f, readText := x } } =
          { s with
            current_text_cache := x
            last_text_update_time := t
            idle_timer := some (t + delay) } := by
        have hd2 : deliver delay s
            { time := t,
              ev := Event.textChanged { source := some f, readText := x } } =
            on_text_changed_event delay t (fireDue delay t s)
              { source := some f, readText := x } := rfl
        rw [hd2, fireDue_not_due delay t s htimer]
        exact text_event_matching delay t s f x hf
      rw [hdel]
      have htimer2 : ∀ d,
          ({ s with
              current_text_cache := x
              last_text_update_time := t
              idle_timer := some (t + delay) } : CoreState).idle_timer = some d →
            t2 < d := by
        intro d hd
        obtain rfl : t + delay = d := Option.some.inj hd
        exact hok1.2
      rw [ih t2 x2
        { s with
          current_text_cache := x
          last_text_update_time := t
          idle_timer := some (t + delay) } hf htimer2 hok2]
      rfl

/-- Claim C2: for a burst of two or more text-change events from the tracked
field, each arriving sooner than the debounce delay after the previous one,
followed by a quiet period of at least the delay, exactly one suggestion
request is issued (the request log and the in-flight list each grow by
exactly one entry), and the text it carries is the field text read at the
last event of the burst. -/
theorem c2_debounce_single_request (delay : Nat) (s : CoreState) (f : FieldId)
    (t : Nat) (x : String) (rest : List (Nat × String)) (endTime : Nat)
    (hf : s.current_focus = some f) (ht : s.idle_timer = none)
    (hlen : 2 ≤ ((t, x) :: rest).length)
    (hok : burstTimesOk delay ((t, x) :: rest) = true)
    (hend : (lastPair (t, x) rest).1 + delay ≤ endTime) :
    (runTo delay s (burstEvents f ((t, x) :: rest)) endTime).requests
      = s.requests ++ [(lastPair (t, x) rest).2] ∧
    (runTo delay s (burstEvents f ((t, x) :: rest)) endTime).pending
      = s.pending ++ [(some f, (lastPair (t, x) rest).2)] := by
  have _ := hlen
  have hburst := run_burst delay f rest t x s hf
    (fun d hd => by rw [ht] at hd; exact Option.noConfusion hd) hok
  unfold runTo
  rw [hburst]
  rw [fireDue_armed_due delay endTime ((lastPair (t, x) rest).1 + delay) _ rfl hend]
  rw [check_and_query_at_deadline delay (lastPair (t, x) rest).1 _ rfl]
  rw [query_llm_async_focused
    { s with
      current_text_cache := (lastPair (t, x) rest).2
      last_text_update_time := (lastPair (t, x) rest).1
      idle_timer := none } f hf]
  exact ⟨rfl, rfl⟩

/-- Witness for C2: a three-event burst `"H"`, `"He"`, `"Hel"` at times 0,
100, 200 with delay 500, quiet until 700, from a focused field 0. -/
theorem c2_debounce_single_request_witness :
    (runTo 500 { initState with current_focus := some 0 }
        (burstEvents 0 [(0, "H"), (100, "He"), (200, "Hel")]) 700).requests
      = ({ initState with current_focus := some 0 } : CoreState).requests
          ++ [(lastPair (0, "H") [(100, "He"), (200, "Hel")]).2] ∧
    (runTo 500 { initState with current_focus := some 0 }
        (burstEvents 0 [(0, "H"), (100, "He"), (200, "Hel")]) 700).pending
      = ({ initState with current_focus := some 0 } : CoreState).pending
          ++ [(some 0, (lastPair (0, "H") [(100, "He"), (200, "Hel")]).2)] :=
  c2_debounce_single_request 500 { initState with current_focus := some 0 } 0 0
    "H" [(100, "He"), (200, "Hel")] 700 rfl rfl (by decide) (by decide)
    (by decide)

end Autocompleter
